import Mathlib

/-!
Verification of the constraint-generation layer of the `netmodel`
repository (`oemof/solph/plumbing.py` and `oemof/solph/components.py`)
against its natural-language specification.

The Python source is shallowly embedded: pure computations become Lean
functions over `ℚ`, `ℤ` and `List`; Python exceptions become `Option` or
`Except`.  Machine floats are modelled by exact rationals.
-/

/- ------------------------------------------------------------------ -/
/- Embedding of `plumbing._Sequence` (plumbing.py lines 45-84).        -/
/- ------------------------------------------------------------------ -/

/-- Python list read `l[k]` for an arbitrary integer index `k`:
nonnegative indices address from the front, negative indices address
from the back (`l[k]` is `l[len l + k]` for `-len l ≤ k < 0`), and
anything else raises `IndexError`, modelled as `none`. -/
def pyListGet {α : Type} (l : List α) (k : ℤ) : Option α :=
  if 0 ≤ k then l[k.toNat]?
  else if 0 ≤ k + l.length then l[(k + l.length).toNat]?
  else none

/-- Python list write `l[k] = v` with the same index convention as
`pyListGet`; out-of-range writes raise `IndexError` (`none`). -/
def pyListSet {α : Type} (l : List α) (k : ℤ) (v : α) : Option (List α) :=
  if 0 ≤ k then
    if k.toNat < l.length then some (l.set k.toNat v) else none
  else if 0 ≤ k + l.length then
    if (k + l.length).toNat < l.length then
      some (l.set (k + l.length).toNat v)
    else none
  else none

/-- State of a `plumbing._Sequence`: the materialised backing list
`data` (a `UserList`'s `self.data`) and the constant `default`. -/
structure PySequence (α : Type) where
  data : List α
  default : α
  deriving DecidableEq

/-- `Sequence(scalar)` (plumbing.py lines 13-41) wraps a scalar into
`_Sequence(default=scalar)`, whose backing list starts empty. -/
def sequenceOfScalar {α : Type} (d : α) : PySequence α :=
  { data := [], default := d }

/-- `_Sequence.__getitem__` (plumbing.py lines 72-77): try `data[key]`;
on `IndexError` extend `data` with `[default] * (key - len(data) + 1)`
(an empty extension when that count is not positive) and read again; a
second `IndexError` propagates (`none`).  Returns the value together
with the possibly extended state. -/
def seqGet {α : Type} (s : PySequence α) (k : ℤ) : Option (α × PySequence α) :=
  match pyListGet s.data k with
  | some v => some (v, s)
  | none =>
      match pyListGet
          (s.data ++ List.replicate (k - s.data.length + 1).toNat s.default) k with
      | some v =>
          some (v, { s with
            data := s.data ++ List.replicate (k - s.data.length + 1).toNat s.default })
      | none => none

/-- `_Sequence.__setitem__` (plumbing.py lines 79-84): try
`data[key] = value`; on `IndexError` extend exactly as `__getitem__`
does and write again; a second `IndexError` propagates (`none`). -/
def seqSet {α : Type} (s : PySequence α) (k : ℤ) (v : α) : Option (PySequence α) :=
  match pyListSet s.data k v with
  | some d => some { s with data := d }
  | none =>
      match pyListSet
          (s.data ++ List.replicate (k - s.data.length + 1).toNat s.default) k v with
      | some d2 => some { s with data := d2 }
      | none => none

/- ------------------------------------------------------------------ -/
/- Embedding of `OperationalModel` timestep bookkeeping                -/
/- (plumbing.py lines 134, 153-157).                                   -/
/- ------------------------------------------------------------------ -/

/-- `previous_timesteps = [x - 1 for x in self.timesteps]` followed by
`previous_timesteps[0] = self.timesteps[-1]`, for `timesteps =
range(N)` (plumbing.py lines 153-155).  With `N = 0` the write to index
0 (and the read of `timesteps[-1]`) raises `IndexError`, modelled as
`none`. -/
def previousTimesteps (N : ℕ) : Option (List ℤ) :=
  if 0 < N then
    some (((List.range N).map (fun x : ℕ => (x : ℤ) - 1)).set 0 ((N : ℤ) - 1))
  else none

/- ------------------------------------------------------------------ -/
/- Embedding of the storage balance rules                              -/
/- (components.py lines 240-254 and 386-399).                          -/
/- ------------------------------------------------------------------ -/

/-- Per-storage data read by the balance rules: the node's input and
output bus ids (`n.inputs` / `n.outputs` insertion order) and the three
parameter sequences attached by `GenericStorage.__init__`
(components.py lines 115-121), viewed through total index functions. -/
structure SolphStorage where
  id : ℕ
  inputs : List ℕ
  outputs : List ℕ
  capacityLoss : ℕ → ℚ
  inflowConversionFactor : ℕ → ℚ
  outflowConversionFactor : ℕ → ℚ

/-- `i = {n: [i for i in n.inputs][0] for n in group}`
(components.py lines 217 and 383): the storage's first input bus. -/
def firstInput (n : SolphStorage) : Option ℕ := n.inputs.head?

/-- `o = {n: [o for o in n.outputs][0] for n in group}`
(components.py lines 218 and 384): the storage's first output bus. -/
def firstOutput (n : SolphStorage) : Option ℕ := n.outputs.head?

/- The balance rules themselves subscript `m.timeincrement[t]`
(components.py lines 249, 251, 394, 396) while the model's
`timeincrement` is a scalar (plumbing.py line 135); their embedding,
which needs the Python-subscription model `pyValIdx`, follows further
down the file. -/

/- ------------------------------------------------------------------ -/
/- Embedding of `GenericCHPBlock._create._Q_max_res_rule`              -/
/- (components.py lines 749-761).                                      -/
/- ------------------------------------------------------------------ -/

/-- The expression accumulated by `_Q_max_res_rule` (components.py
lines 749-754), built by the same three `expr +=` steps from the values
of the block variables `P`, `Q`, `H_L_FG_max`, `Y`, `H_F` at `(n, t)`
and the heat output flow's parameter `Q_CW_min[t]`. -/
def qMaxResExpr (P Q HLFGmax QCWmin Y HF : ℚ) : ℚ :=
  0 + (P + Q + HLFGmax) + QCWmin * Y + (- HF)

/-- The `Q_max_res` constraint (components.py lines 755-759):
`expr == 0` when `back_pressure is True`, otherwise `expr <= 0`. -/
def qMaxResConstraint (backPressure : Bool) (P Q HLFGmax QCWmin Y HF : ℚ) : Prop :=
  if backPressure then qMaxResExpr P Q HLFGmax QCWmin Y HF = 0
  else qMaxResExpr P Q HLFGmax QCWmin Y HF ≤ 0

/- ------------------------------------------------------------------ -/
/- Theorems                                                            -/
/- ------------------------------------------------------------------ -/

/-- C8: for a model with `N ≥ 1` timesteps, the previous-timestep
mapping satisfies `previous(0) = N - 1` and `previous(t) = t - 1` for
every `1 ≤ t ≤ N - 1` (plumbing.py lines 153-157). -/
theorem c8_previous_timesteps (N : ℕ) (hN : 1 ≤ N) :
    ∃ l, previousTimesteps N = some l ∧
      l[0]? = some ((N : ℤ) - 1) ∧
      ∀ t : ℕ, 1 ≤ t → t ≤ N - 1 → l[t]? = some ((t : ℤ) - 1) := by
  have hN0 : 0 < N := hN
  refine ⟨((List.range N).map (fun x : ℕ => (x : ℤ) - 1)).set 0 ((N : ℤ) - 1), ?_, ?_, ?_⟩
  · unfold previousTimesteps
    rw [if_pos hN0]
  · apply List.getElem?_set_eq_of_lt
    rw [List.length_map, List.length_range]
    exact hN0
  · intro t ht1 ht2
    have htne : (0 : ℕ) ≠ t := by omega
    have htlt : t < N := by omega
    rw [List.getElem?_set_ne htne, List.getElem?_map, List.getElem?_range htlt]
    rfl

/-- Witness for `c8_previous_timesteps` at `N = 4`. -/
theorem c8_previous_timesteps_witness :
    ∃ l, previousTimesteps 4 = some l ∧
      l[0]? = some ((4 : ℤ) - 1) ∧
      ∀ t : ℕ, 1 ≤ t → t ≤ 4 - 1 → l[t]? = some ((t : ℤ) - 1) :=
  c8_previous_timesteps 4 (by decide)

/-- C7: for every GenericCHP instance and timestep, the `Q_max_res`
constraint is `P + Q + H_L_FG_max + Q_CW_min * Y - H_F ≤ 0` when
`back_pressure` is false and the same expression `== 0` when it is true
(components.py lines 749-761). -/
theorem c7_q_max_res (P Q HLFGmax QCWmin Y HF : ℚ) :
    (qMaxResConstraint true P Q HLFGmax QCWmin Y HF ↔
      P + Q + HLFGmax + QCWmin * Y - HF = 0) ∧
    (qMaxResConstraint false P Q HLFGmax QCWmin Y HF ↔
      P + Q + HLFGmax + QCWmin * Y - HF ≤ 0) := by
  constructor
  · constructor
    · intro h
      have h2 : 0 + (P + Q + HLFGmax) + QCWmin * Y + (- HF) = 0 := h
      linarith
    · intro h
      show 0 + (P + Q + HLFGmax) + QCWmin * Y + (- HF) = 0
      linarith
  · constructor
    · intro h
      have h2 : 0 + (P + Q + HLFGmax) + QCWmin * Y + (- HF) ≤ 0 := h
      linarith
    · intro h
      show 0 + (P + Q + HLFGmax) + QCWmin * Y + (- HF) ≤ 0
      linarith

/- ------------------------------------------------------------------ -/
/- Lemmas about the `_Sequence` embedding.                             -/
/- ------------------------------------------------------------------ -/

theorem pyListGet_ofNat {α : Type} (l : List α) (k : ℕ) :
    pyListGet l (k : ℤ) = l[k]? := by
  unfold pyListGet
  rw [if_pos (by omega : (0 : ℤ) ≤ (k : ℤ))]
  simp

theorem pyListSet_length {α : Type} (l : List α) (k : ℤ) (v : α) (d : List α)
    (h : pyListSet l k v = some d) : d.length = l.length := by
  unfold pyListSet at h
  split_ifs at h
  all_goals injection h with h2
  all_goals rw [← h2]
  all_goals simp

theorem seqGet_nat_lt {α : Type} (s : PySequence α) (k : ℕ)
    (h : k < s.data.length) :
    seqGet s (k : ℤ) = some (s.data[k], s) := by
  unfold seqGet
  rw [pyListGet_ofNat, List.getElem?_eq_getElem h]

theorem seqGet_nat_ge {α : Type} (s : PySequence α) (k : ℕ)
    (h : s.data.length ≤ k) :
    seqGet s (k : ℤ) = some (s.default,
      { s with data :=
          s.data ++ List.replicate (k - s.data.length + 1) s.default }) := by
  have hc : ((k : ℤ) - (s.data.length : ℤ) + 1).toNat = k - s.data.length + 1 := by
    omega
  unfold seqGet
  rw [pyListGet_ofNat, List.getElem?_eq_none h, hc, pyListGet_ofNat,
    List.getElem?_append_right h,
    List.getElem?_replicate_of_lt (by omega : k - s.data.length < k - s.data.length + 1)]

theorem pyListSet_ofNat_lt {α : Type} (l : List α) (k : ℕ) (v : α)
    (h : k < l.length) :
    pyListSet l (k : ℤ) v = some (l.set k v) := by
  unfold pyListSet
  rw [if_pos (by omega : (0 : ℤ) ≤ (k : ℤ))]
  simp [h]

theorem pyListSet_ofNat_ge {α : Type} (l : List α) (k : ℕ) (v : α)
    (h : l.length ≤ k) :
    pyListSet l (k : ℤ) v = none := by
  unfold pyListSet
  rw [if_pos (by omega : (0 : ℤ) ≤ (k : ℤ))]
  rw [if_neg (by omega : ¬ ((k : ℤ).toNat < l.length))]

theorem seqSet_nat_lt {α : Type} (s : PySequence α) (k : ℕ) (v : α)
    (h : k < s.data.length) :
    seqSet s (k : ℤ) v = some { s with data := s.data.set k v } := by
  unfold seqSet
  rw [pyListSet_ofNat_lt _ _ _ h]

theorem seqSet_nat_ge {α : Type} (s : PySequence α) (k : ℕ) (v : α)
    (h : s.data.length ≤ k) :
    seqSet s (k : ℤ) v = some { s with data :=
      (s.data ++ List.replicate (k - s.data.length + 1) s.default).set k v } := by
  have hc : ((k : ℤ) - (s.data.length : ℤ) + 1).toNat = k - s.data.length + 1 := by
    omega
  unfold seqSet
  rw [pyListSet_ofNat_ge _ _ _ h, hc,
    pyListSet_ofNat_lt _ _ _
      (by simp [List.length_append, List.length_replicate]; omega)]

/-- C4 counterexample: on the constant sequence wrapping 42, reading
index 2 materialises three slots; a subsequent read at index 0 leaves
the length at 3, not 0 + 1 as the claim requires. -/
theorem c4_length_counterexample :
    seqGet (sequenceOfScalar (42 : ℤ)) 2
        = some (42, { data := [42, 42, 42], default := 42 }) ∧
    seqGet ({ data := [42, 42, 42], default := 42 } : PySequence ℤ) 0
        = some (42, { data := [42, 42, 42], default := 42 }) ∧
    ¬ (({ data := [42, 42, 42], default := 42 } : PySequence ℤ).data.length
        = 0 + 1) := by
  refine ⟨?_, ?_, by decide⟩ <;> rfl

/-- C4 (amended): on a constant sequence whose materialised slots all
still hold the default `d`, reading any index `k ≥ 0` returns `d` and
leaves the slots all-default; and immediately after a read or a write
at `k` the materialised length is `max (previous length) (k + 1)`. -/
theorem c4_constant_sequence_reads {α : Type} (s : PySequence α) (k : ℕ)
    (hall : ∀ x ∈ s.data, x = s.default) :
    (∃ s2 : PySequence α, seqGet s (k : ℤ) = some (s.default, s2) ∧
      s2.data.length = max s.data.length (k + 1) ∧
      s2.default = s.default ∧ ∀ x ∈ s2.data, x = s2.default) ∧
    (∀ v : α, ∃ s2 : PySequence α, seqSet s (k : ℤ) v = some s2 ∧
      s2.data.length = max s.data.length (k + 1)) := by
  constructor
  · by_cases h : k < s.data.length
    · refine ⟨s, ?_, by omega, rfl, hall⟩
      rw [seqGet_nat_lt s k h, hall s.data[k] (List.getElem_mem h)]
    · have h2 : s.data.length ≤ k := by omega
      refine ⟨_, seqGet_nat_ge s k h2, ?_, rfl, ?_⟩
      · simp [List.length_append, List.length_replicate]
        omega
      · intro x hx
        rcases List.mem_append.mp hx with hx1 | hx2
        · exact hall x hx1
        · exact List.eq_of_mem_replicate hx2
  · intro v
    by_cases h : k < s.data.length
    · refine ⟨_, seqSet_nat_lt s k v h, ?_⟩
      simp [List.length_set]
      omega
    · have h2 : s.data.length ≤ k := by omega
      refine ⟨_, seqSet_nat_ge s k v h2, ?_⟩
      simp [List.length_set, List.length_append, List.length_replicate]
      omega

/-- Witness for `c4_constant_sequence_reads` on the fresh constant
sequence wrapping 42, at index 2. -/
theorem c4_constant_sequence_reads_witness :
    (∃ s2 : PySequence ℤ,
      seqGet (sequenceOfScalar (42 : ℤ)) ((2 : ℕ) : ℤ)
          = some ((sequenceOfScalar (42 : ℤ)).default, s2) ∧
      s2.data.length = max (sequenceOfScalar (42 : ℤ)).data.length (2 + 1) ∧
      s2.default = (sequenceOfScalar (42 : ℤ)).default ∧
      ∀ x ∈ s2.data, x = s2.default) ∧
    (∀ v : ℤ, ∃ s2 : PySequence ℤ,
      seqSet (sequenceOfScalar (42 : ℤ)) ((2 : ℕ) : ℤ) v = some s2 ∧
      s2.data.length = max (sequenceOfScalar (42 : ℤ)).data.length (2 + 1)) :=
  c4_constant_sequence_reads (sequenceOfScalar (42 : ℤ)) 2 (by simp [sequenceOfScalar])

/-- C5 counterexample: `__getitem__` is not total over all Python
indices: on a freshly wrapped scalar (empty backing list), reading
index -1 raises `IndexError` both before and after the (empty)
extension, so the call fails. -/
theorem c5_total_counterexample :
    seqGet (sequenceOfScalar (42 : ℤ)) (-1) = none := by rfl

/-- C5 (amended): reading never fails for indices `k ≥ 0`, and for any
index at all the materialised length never shrinks across a completed
read or write. -/
theorem c5_nonneg_total_and_monotone {α : Type} (s : PySequence α) (k : ℤ) :
    (0 ≤ k → (seqGet s k).isSome) ∧
    (∀ (v : α) (s2 : PySequence α),
      seqGet s k = some (v, s2) → s.data.length ≤ s2.data.length) ∧
    (∀ (v : α) (s2 : PySequence α),
      seqSet s k v = some s2 → s.data.length ≤ s2.data.length) := by
  refine ⟨?_, ?_, ?_⟩
  · intro hk
    obtain ⟨n, rfl⟩ : ∃ n : ℕ, (n : ℤ) = k := ⟨k.toNat, by omega⟩
    by_cases h : n < s.data.length
    · rw [seqGet_nat_lt s n h]
      rfl
    · rw [seqGet_nat_ge s n (by omega)]
      rfl
  · intro v s2 h
    unfold seqGet at h
    cases hg : pyListGet s.data k with
    | some w =>
        rw [hg] at h
        simp only [Option.some.injEq, Prod.mk.injEq] at h
        rw [← h.2]
    | none =>
        rw [hg] at h
        cases hg2 : pyListGet
            (s.data ++ List.replicate (k - s.data.length + 1).toNat s.default) k with
        | some w =>
            rw [hg2] at h
            simp only [Option.some.injEq, Prod.mk.injEq] at h
            rw [← h.2]
            simp [List.length_append]
        | none =>
            rw [hg2] at h
            exact absurd h (by simp)
  · intro v s2 h
    unfold seqSet at h
    cases hg : pyListSet s.data k v with
    | some d =>
        rw [hg] at h
        have hd := pyListSet_length s.data k v d hg
        simp only [Option.some.injEq] at h
        rw [← h]
        simp [hd]
    | none =>
        rw [hg] at h
        cases hg2 : pyListSet
            (s.data ++ List.replicate (k - s.data.length + 1).toNat s.default) k v with
        | some d2 =>
            rw [hg2] at h
            have hd := pyListSet_length _ k v d2 hg2
            simp only [Option.some.injEq] at h
            rw [← h]
            simp [hd, List.length_append]
        | none =>
            rw [hg2] at h
            exact absurd h (by simp)

/-- Witness for `c5_nonneg_total_and_monotone` on the fresh constant
sequence wrapping 42 at index 5. -/
theorem c5_nonneg_total_and_monotone_witness :
    ((0 : ℤ) ≤ 5 → (seqGet (sequenceOfScalar (42 : ℤ)) 5).isSome) ∧
    (∀ (v : ℤ) (s2 : PySequence ℤ),
      seqGet (sequenceOfScalar (42 : ℤ)) 5 = some (v, s2) →
        (sequenceOfScalar (42 : ℤ)).data.length ≤ s2.data.length) ∧
    (∀ (v : ℤ) (s2 : PySequence ℤ),
      seqSet (sequenceOfScalar (42 : ℤ)) 5 v = some s2 →
        (sequenceOfScalar (42 : ℤ)).data.length ≤ s2.data.length) :=
  c5_nonneg_total_and_monotone (sequenceOfScalar (42 : ℤ)) 5

/- ------------------------------------------------------------------ -/
/- Embedding of `OperationalModel.CONSTRAINT_GROUPS` handling          -/
/- (plumbing.py lines 121-124 and 137-138, 229-236).                   -/
/- ------------------------------------------------------------------ -/

/-- Tags for the constraint-block types registered with an
`OperationalModel`: the seven entries of the class-level default list
(plumbing.py lines 121-124) plus arbitrary further block types a caller
may pass via `constraint_groups`. -/
inductive BlockTag where
  | bus
  | linearTransformer
  | storage
  | investmentFlow
  | investmentStorage
  | flow
  | discrete
  | custom (n : ℕ)
  deriving DecidableEq

/-- The initial value of the class attribute
`OperationalModel.CONSTRAINT_GROUPS` (plumbing.py lines 121-124). -/
def defaultConstraintGroups : List BlockTag :=
  [.bus, .linearTransformer, .storage, .investmentFlow, .investmentStorage,
   .flow, .discrete]

/-- Outcome of one `OperationalModel.__init__` as far as constraint
groups are concerned: the list the new model iterates over to
instantiate its blocks (plumbing.py lines 229-236), and the value of
the shared class attribute after construction. -/
structure OperationalModelInit where
  constraintGroups : List BlockTag
  classGroupsAfter : List BlockTag
  deriving DecidableEq

/-- `self._constraint_groups = OperationalModel.CONSTRAINT_GROUPS`
followed by `self._constraint_groups.extend(...)` (plumbing.py lines
137-138): the assignment aliases the class-level list, so the in-place
`extend` changes the class attribute itself; both the model's group
list and the class attribute end up as the old class list plus the
passed `constraint_groups`. -/
def operationalModelInit (classGroups : List BlockTag)
    (extra : List BlockTag) : OperationalModelInit :=
  { constraintGroups := classGroups ++ extra
    classGroupsAfter := classGroups ++ extra }

/- ------------------------------------------------------------------ -/
/- Embedding of `GenericStorage.__init__` flow checking                -/
/- (components.py lines 107-165).                                      -/
/- ------------------------------------------------------------------ -/

/-- Modelled from the spec: the `Investment` descriptor class (repo
module `oemof.solph.options`, not under `src/`): "a decision variable
representing an optimizer-chosen capacity size, paired with a per-unit
annualized cost and an upper size bound"; `Investment()` without
arguments leaves both unset. -/
structure Investment where
  epCosts : Option ℚ := none
  maximum : Option ℚ := none
  deriving DecidableEq

/-- The slice of a `Flow` object that `GenericStorage.__init__` reads
and writes: its `nominal_value` and its `investment` attribute, where
`none` in `investment` stands for any value that is not an `Investment`
instance (the `isinstance` test at components.py lines 149 and 164). -/
structure SFlow where
  nominalValue : Option ℚ
  investment : Option Investment
  deriving DecidableEq

/-- The exceptions `GenericStorage.__init__` can raise: the
`AttributeError` built from the `e_no_nv` message, the one built from
`e_duplicate` (components.py lines 126-132), and the `TypeError` from
multiplying a capacity ratio with a `nominal_capacity` of `None`. -/
inductive StorageInitError where
  | eNoNV
  | eDuplicate
  | typeError
  deriving DecidableEq

/-- One iteration of the flow-checking loops in
`GenericStorage.__init__` (components.py lines 138-150 for inputs with
the input ratio, lines 153-165 for outputs with the output ratio):
raise `e_no_nv` if an investment is present and the flow has a nominal
value; raise `e_duplicate` if the flow has a nominal value and a ratio
is given; without an investment, a given ratio sets the flow's nominal
value to `ratio * nominal_capacity`; with an investment, a flow whose
`investment` attribute is not an `Investment` gets a fresh default
`Investment()`. -/
def checkStorageFlow (investment : Option Investment) (ratio : Option ℚ)
    (nominalCapacity : Option ℚ) (f : SFlow) : Except StorageInitError SFlow :=
  if investment.isSome ∧ f.nominalValue.isSome then .error .eNoNV
  else if f.nominalValue.isSome ∧ ratio.isSome then .error .eDuplicate
  else if investment.isNone ∧ ratio.isSome then
    match nominalCapacity with
    | some nc => .ok { f with nominalValue := some (ratio.getD 0 * nc) }
    | none => .error .typeError
  else if investment.isSome ∧ f.investment.isNone then
    .ok { f with investment := some { epCosts := none, maximum := none } }
  else .ok f

/-- The flow loop of `GenericStorage.__init__`: flows are checked in
order and the first raised exception aborts construction. -/
def checkFlows (investment : Option Investment) (ratio : Option ℚ)
    (nominalCapacity : Option ℚ) : List SFlow → Except StorageInitError (List SFlow)
  | [] => .ok []
  | f :: fs =>
      match checkStorageFlow investment ratio nominalCapacity f with
      | .error e => .error e
      | .ok f2 =>
          match checkFlows investment ratio nominalCapacity fs with
          | .error e => .error e
          | .ok fs2 => .ok (f2 :: fs2)

/-- `GenericStorage.__init__` (components.py lines 107-165): the
investment/nominal-capacity clash check (lines 134-135), then the input
flow loop (lines 138-150), then the output flow loop (lines 153-165).
On success it returns the updated input and output flows. -/
def genericStorageInit (nominalCapacity inRatio outRatio : Option ℚ)
    (investment : Option Investment) (inputs outputs : List SFlow) :
    Except StorageInitError (List SFlow × List SFlow) :=
  if investment.isSome ∧ nominalCapacity.isSome then .error .eNoNV
  else
    match checkFlows investment inRatio nominalCapacity inputs with
    | .error e => .error e
    | .ok ins =>
        match checkFlows investment outRatio nominalCapacity outputs with
        | .error e => .error e
        | .ok outs => .ok (ins, outs)

/- ------------------------------------------------------------------ -/
/- Lemmas about `GenericStorage.__init__` with an investment.          -/
/- ------------------------------------------------------------------ -/

theorem checkStorageFlow_invest_err (inv : Investment) (r nc : Option ℚ)
    (f : SFlow) (h : f.nominalValue.isSome) :
    checkStorageFlow (some inv) r nc f = .error .eNoNV := by
  unfold checkStorageFlow
  simp [h]

theorem checkStorageFlow_invest_ok (inv : Investment) (r nc : Option ℚ)
    (f : SFlow) (h : f.nominalValue = none) :
    ∃ f2, checkStorageFlow (some inv) r nc f = .ok f2 ∧
      f2.investment.isSome ∧ f2.nominalValue = none := by
  unfold checkStorageFlow
  cases hp : f.investment with
  | some i =>
      exact ⟨f, by simp [h, hp], by simp [hp], h⟩
  | none =>
      exact ⟨{ f with investment := some { epCosts := none, maximum := none } },
        by simp [h, hp], by simp, h⟩

theorem checkFlows_invest_ok (inv : Investment) (r nc : Option ℚ)
    (fs l : List SFlow) (h : checkFlows (some inv) r nc fs = .ok l) :
    ∀ f ∈ l, f.investment.isSome ∧ f.nominalValue = none := by
  induction fs generalizing l with
  | nil =>
      unfold checkFlows at h
      simp only [Except.ok.injEq] at h
      rw [← h]
      intro f hf
      exact absurd hf (List.not_mem_nil f)
  | cons f fs ih =>
      unfold checkFlows at h
      cases hc : checkStorageFlow (some inv) r nc f with
      | error e => rw [hc] at h; exact absurd h (by simp)
      | ok f2 =>
          rw [hc] at h
          cases hcs : checkFlows (some inv) r nc fs with
          | error e => rw [hcs] at h; exact absurd h (by simp)
          | ok fs2 =>
              rw [hcs] at h
              simp only [Except.ok.injEq] at h
              rw [← h]
              intro g hg
              rcases List.mem_cons.mp hg with hg1 | hg2
              · by_cases hnv : f.nominalValue.isSome
                · rw [checkStorageFlow_invest_err inv r nc f hnv] at hc
                  exact absurd hc (by simp)
                · obtain ⟨f3, hf3, hp⟩ := checkStorageFlow_invest_ok inv r nc f
                    (Option.not_isSome_iff_eq_none.mp hnv)
                  rw [hf3] at hc
                  simp only [Except.ok.injEq] at hc
                  rw [hg1, ← hc]
                  exact hp
              · exact ih fs2 hcs g hg2
  
theorem checkFlows_invest_cases (inv : Investment) (r nc : Option ℚ)
    (fs : List SFlow) :
    checkFlows (some inv) r nc fs = .error .eNoNV ∨
    ∃ l, checkFlows (some inv) r nc fs = .ok l := by
  induction fs with
  | nil => exact Or.inr ⟨[], rfl⟩
  | cons f fs ih =>
      by_cases hnv : f.nominalValue.isSome
      · left
        unfold checkFlows
        rw [checkStorageFlow_invest_err inv r nc f hnv]
      · obtain ⟨f3, hf3, _⟩ := checkStorageFlow_invest_ok inv r nc f
          (Option.not_isSome_iff_eq_none.mp hnv)
        rcases ih with herr | ⟨l, hl⟩
        · left
          unfold checkFlows
          rw [hf3, herr]
        · right
          refine ⟨f3 :: l, ?_⟩
          unfold checkFlows
          rw [hf3, hl]

theorem checkFlows_invest_err (inv : Investment) (r nc : Option ℚ)
    (fs : List SFlow) (h : ∃ f ∈ fs, f.nominalValue.isSome) :
    checkFlows (some inv) r nc fs = .error .eNoNV := by
  induction fs with
  | nil => obtain ⟨f, hf, _⟩ := h; exact absurd hf (List.not_mem_nil f)
  | cons f fs ih =>
      obtain ⟨g, hg, hgv⟩ := h
      rcases List.mem_cons.mp hg with hg1 | hg2
      · unfold checkFlows
        rw [hg1] at hgv
        rw [checkStorageFlow_invest_err inv r nc f hgv]
      · unfold checkFlows
        by_cases hnv : f.nominalValue.isSome
        · rw [checkStorageFlow_invest_err inv r nc f hnv]
        · obtain ⟨f3, hf3, _⟩ := checkStorageFlow_invest_ok inv r nc f
            (Option.not_isSome_iff_eq_none.mp hnv)
          rw [hf3, ih ⟨g, hg2, hgv⟩]

/-- C10: after a `GenericStorage` with an investment descriptor is
successfully constructed, every one of its input and output flows
carries an `Investment` object and none of them has a nominal value;
and construction raises `e_no_nv` whenever any attached flow already
carries a nominal value (components.py lines 107-165). -/
theorem c10_investment_storage_flows (inv : Investment)
    (nominalCapacity inRatio outRatio : Option ℚ)
    (inputs outputs : List SFlow) :
    (∀ ins outs,
      genericStorageInit nominalCapacity inRatio outRatio (some inv)
          inputs outputs = .ok (ins, outs) →
        ∀ f ∈ ins ++ outs, f.investment.isSome ∧ f.nominalValue = none) ∧
    ((∃ f ∈ inputs ++ outputs, f.nominalValue.isSome) →
      genericStorageInit nominalCapacity inRatio outRatio (some inv)
          inputs outputs = .error .eNoNV) := by
  constructor
  · intro ins outs h
    unfold genericStorageInit at h
    by_cases hnc : nominalCapacity.isSome
    · rw [if_pos (by simp [hnc])] at h
      exact absurd h (by simp)
    · rw [if_neg (by simp [hnc])] at h
      cases hci : checkFlows (some inv) inRatio nominalCapacity inputs with
      | error e => rw [hci] at h; exact absurd h (by simp)
      | ok ins2 =>
          rw [hci] at h
          cases hco : checkFlows (some inv) outRatio nominalCapacity outputs with
          | error e => rw [hco] at h; exact absurd h (by simp)
          | ok outs2 =>
              rw [hco] at h
              simp only [Except.ok.injEq, Prod.mk.injEq] at h
              intro f hf
              rcases List.mem_append.mp hf with hf1 | hf2
              · exact checkFlows_invest_ok inv inRatio nominalCapacity inputs
                  ins2 hci f (by rw [h.1]; exact hf1)
              · exact checkFlows_invest_ok inv outRatio nominalCapacity outputs
                  outs2 hco f (by rw [h.2]; exact hf2)
  · intro hex
    unfold genericStorageInit
    by_cases hnc : nominalCapacity.isSome
    · rw [if_pos (by simp [hnc])]
    · rw [if_neg (by simp [hnc])]
      obtain ⟨g, hg, hgv⟩ := hex
      rcases List.mem_append.mp hg with hg1 | hg2
      · rw [checkFlows_invest_err inv inRatio nominalCapacity inputs ⟨g, hg1, hgv⟩]
      · rcases checkFlows_invest_cases inv inRatio nominalCapacity inputs with
          herr | ⟨ins2, hok⟩
        · rw [herr]
        · rw [hok,
            checkFlows_invest_err inv outRatio nominalCapacity outputs ⟨g, hg2, hgv⟩]

/-- Witness for `c10_investment_storage_flows` on a storage with one
bare input flow and one bare output flow and the investment
`Investment(ep_costs=50)`. -/
theorem c10_investment_storage_flows_witness :
    (∀ ins outs,
      genericStorageInit none none none
          (some { epCosts := some 50, maximum := none })
          [{ nominalValue := none, investment := none }]
          [{ nominalValue := none, investment := none }] = .ok (ins, outs) →
        ∀ f ∈ ins ++ outs, f.investment.isSome ∧ f.nominalValue = none) ∧
    ((∃ f ∈ [({ nominalValue := none, investment := none } : SFlow)] ++
          [({ nominalValue := none, investment := none } : SFlow)],
        f.nominalValue.isSome) →
      genericStorageInit none none none
          (some { epCosts := some 50, maximum := none })
          [{ nominalValue := none, investment := none }]
          [{ nominalValue := none, investment := none }] = .error .eNoNV) :=
  c10_investment_storage_flows { epCosts := some 50, maximum := none }
    none none none
    [{ nominalValue := none, investment := none }]
    [{ nominalValue := none, investment := none }]

/-- C9: constructing an `OperationalModel` with a non-empty
`constraint_groups` argument extends the shared class-level
`CONSTRAINT_GROUPS` list in place, so a model constructed afterwards
without that argument still iterates over the added block types, and
the class attribute is not restored to the default list (plumbing.py
lines 121-138). -/
theorem c9_constraint_groups_shared (extra : List BlockTag)
    (hne : extra ≠ []) :
    (operationalModelInit
        (operationalModelInit defaultConstraintGroups extra).classGroupsAfter
        []).constraintGroups = defaultConstraintGroups ++ extra ∧
    (∀ b ∈ extra,
      b ∈ (operationalModelInit
        (operationalModelInit defaultConstraintGroups extra).classGroupsAfter
        []).constraintGroups) ∧
    (operationalModelInit defaultConstraintGroups extra).classGroupsAfter
      ≠ defaultConstraintGroups := by
  refine ⟨by simp [operationalModelInit], ?_, ?_⟩
  · intro b hb
    simp [operationalModelInit]
    right
    exact hb
  · intro heq
    apply hne
    have hl := congrArg List.length heq
    simp only [operationalModelInit, List.length_append] at hl
    have h0 : extra.length = 0 := by omega
    exact List.length_eq_zero.mp h0

/-- Witness for `c9_constraint_groups_shared` with one added custom
block type. -/
theorem c9_constraint_groups_shared_witness :
    (operationalModelInit
        (operationalModelInit defaultConstraintGroups [.custom 0]).classGroupsAfter
        []).constraintGroups = defaultConstraintGroups ++ [.custom 0] ∧
    (∀ b ∈ [BlockTag.custom 0],
      b ∈ (operationalModelInit
        (operationalModelInit defaultConstraintGroups [.custom 0]).classGroupsAfter
        []).constraintGroups) ∧
    (operationalModelInit defaultConstraintGroups [.custom 0]).classGroupsAfter
      ≠ defaultConstraintGroups :=
  c9_constraint_groups_shared [.custom 0] (by decide)

/- ------------------------------------------------------------------ -/
/- Embedding of `GenericCHP._calculate_alphas`                         -/
/- (components.py lines 572-610).                                      -/
/- ------------------------------------------------------------------ -/

/-- One of the four attributes `P_min_woDH`, `Eta_el_min_woDH`,
`P_max_woDH`, `Eta_el_max_woDH` as passed on the electrical output
flow: either a numeric scalar (`int`/`float`) or a list of numbers. -/
inductive PyVal where
  | scalar (q : ℚ)
  | seq (l : List ℚ)
  deriving DecidableEq

/-- The exceptions reachable from `_calculate_alphas`: `TypeError` from
`len()` or subscription of a scalar, `ValueError` from `max()` of an
empty sequence (components.py line 589), the explicit dimension
`ValueError` (lines 605-608), `IndexError` from indexing past the end,
`ZeroDivisionError` from a zero efficiency, and `numpy.linalg.solve`'s
`LinAlgError` on a singular matrix. -/
inductive AlphaError where
  | typeError
  | valueErrorMax
  | valueErrorDim
  | indexError
  | zeroDivision
  | linAlgError
  deriving DecidableEq

/-- Python `a[i]` on an attribute value: subscripting a scalar raises
`TypeError`, an out-of-range index raises `IndexError`. -/
def pyValIdx : PyVal → ℕ → Except AlphaError ℚ
  | .scalar _, _ => .error .typeError
  | .seq l, i =>
      match l[i]? with
      | some v => .ok v
      | none => .error .indexError

/-- `length = [len(a) for a in attrs if not isinstance(a, (int, float))]`
(components.py line 588): the lengths of the non-scalar attributes. -/
def nonScalarLengths (attrs : List PyVal) : List ℕ :=
  attrs.filterMap fun a =>
    match a with
    | .scalar _ => none
    | .seq l => some l.length

/-- Python `max(...)` (components.py line 589): raises `ValueError` on
an empty sequence. -/
def pyMax : List ℕ → Except AlphaError ℕ
  | [] => .error .valueErrorMax
  | h :: t => .ok (t.foldl max h)

/-- `all(len(a) == max_length for a in attrs)` (components.py line 592)
with Python's evaluation order: `len()` of a scalar raises `TypeError`,
and the first failing comparison short-circuits to `False`. -/
def allLenEq (attrs : List PyVal) (m : ℕ) : Except AlphaError Bool :=
  match attrs with
  | [] => .ok true
  | a :: rest =>
      match a with
      | .scalar _ => .error .typeError
      | .seq l => if l.length = m then allLenEq rest m else .ok false

/-- `np.linalg.solve` on the system `[[1, p1], [1, p2]] x = [b1, b2]`
(components.py lines 596-602), modelled exactly over `ℚ`: raises
`LinAlgError` on a singular matrix, otherwise returns the unique
solution `(x0, x1)`. -/
def solve2x2 (p1 p2 b1 b2 : ℚ) : Except AlphaError (ℚ × ℚ) :=
  if p2 - p1 = 0 then .error .linAlgError
  else .ok (b1 - (b2 - b1) / (p2 - p1) * p1, (b2 - b1) / (p2 - p1))

/-- The body of the `for i in range(0, max_length)` loop (components.py
lines 595-604) at index `i`: read `P_min_woDH[i]` and `P_max_woDH[i]`
for `A`, divide by the efficiencies for `b` (Python float division by
zero raises `ZeroDivisionError`), and solve. -/
def alphaStep (pmin etamin pmax etamax : PyVal) (i : ℕ) :
    Except AlphaError (ℚ × ℚ) :=
  match pyValIdx pmin i with
  | .error e => .error e
  | .ok p1 =>
      match pyValIdx pmax i with
      | .error e => .error e
      | .ok p2 =>
          match pyValIdx etamin i with
          | .error e => .error e
          | .ok e1 =>
              if e1 = 0 then .error .zeroDivision
              else
                match pyValIdx etamax i with
                | .error e => .error e
                | .ok e2 =>
                    if e2 = 0 then .error .zeroDivision
                    else solve2x2 p1 p2 (p1 / e1) (p2 / e2)

/-- The accumulation `alphas[0].append(x[0]); alphas[1].append(x[1])`
over `i` ascending (components.py lines 595-604); the first exception
aborts the loop. -/
def alphaLoop (pmin etamin pmax etamax : PyVal) :
    ℕ → Except AlphaError (List ℚ × List ℚ)
  | 0 => .ok ([], [])
  | n + 1 =>
      match alphaLoop pmin etamin pmax etamax n with
      | .error e => .error e
      | .ok a =>
          match alphaStep pmin etamin pmax etamax n with
          | .error e => .error e
          | .ok x => .ok (a.1 ++ [x.1], a.2 ++ [x.2])

/-- `GenericCHP._calculate_alphas` (components.py lines 572-610):
collect the non-scalar lengths, take their `max`, test
`all(len(a) == max_length for a in attrs)`; on success bump a zero
`max_length` to 1 and run the solve loop, otherwise raise the
dimension `ValueError`. -/
def calculateAlphas (pmin etamin pmax etamax : PyVal) :
    Except AlphaError (List ℚ × List ℚ) :=
  match pyMax (nonScalarLengths [pmin, etamin, pmax, etamax]) with
  | .error e => .error e
  | .ok maxLength =>
      match allLenEq [pmin, etamin, pmax, etamax] maxLength with
      | .error e => .error e
      | .ok true =>
          alphaLoop pmin etamin pmax etamax
            (if maxLength = 0 then 1 else maxLength)
      | .ok false => .error .valueErrorDim

/-- `l[i]` with Python's "defined because we checked the length"
reading: the value of a rational list at `i`, defaulting to 0 out of
range (only ever used under an in-range hypothesis). -/
def nthQ (l : List ℚ) (i : ℕ) : ℚ := (l[i]?).getD 0

/- ------------------------------------------------------------------ -/
/- Lemmas about `_calculate_alphas`.                                   -/
/- ------------------------------------------------------------------ -/

theorem pyValIdx_seq_lt (l : List ℚ) (i : ℕ) (h : i < l.length) :
    pyValIdx (.seq l) i = .ok (nthQ l i) := by
  simp only [pyValIdx, nthQ, List.getElem?_eq_getElem h, Option.getD_some]

theorem nthQ_append_lt (a : List ℚ) (x : ℚ) (i : ℕ) (h : i < a.length) :
    nthQ (a ++ [x]) i = nthQ a i := by
  unfold nthQ
  rw [List.getElem?_append_left h]

theorem nthQ_concat_self (a : List ℚ) (x : ℚ) :
    nthQ (a ++ [x]) a.length = x := by
  unfold nthQ
  rw [List.getElem?_concat_length]
  rfl

theorem allLenEq_four_true (l1 l2 l3 l4 : List ℚ) (M : ℕ)
    (h1 : l1.length = M) (h2 : l2.length = M) (h3 : l3.length = M)
    (h4 : l4.length = M) :
    allLenEq [.seq l1, .seq l2, .seq l3, .seq l4] M = .ok true := by
  simp [allLenEq, h1, h2, h3, h4]

theorem allLenEq_four_false (l1 l2 l3 l4 : List ℚ) (M : ℕ)
    (h : ¬ (l1.length = M ∧ l2.length = M ∧ l3.length = M ∧
        l4.length = M)) :
    allLenEq [.seq l1, .seq l2, .seq l3, .seq l4] M = .ok false := by
  by_cases h1 : l1.length = M <;> by_cases h2 : l2.length = M <;>
    by_cases h3 : l3.length = M <;> by_cases h4 : l4.length = M
  · exact absurd ⟨h1, h2, h3, h4⟩ h
  all_goals simp [allLenEq, h1, h2, h3, h4]

theorem alphaStep_ok (p1 e1 p2 e2 : List ℚ) (i : ℕ)
    (h1 : i < p1.length) (h2 : i < p2.length)
    (h3 : i < e1.length) (h4 : i < e2.length)
    (he1 : nthQ e1 i ≠ 0) (he2 : nthQ e2 i ≠ 0)
    (hp : nthQ p1 i ≠ nthQ p2 i) :
    ∃ x : ℚ × ℚ,
      alphaStep (.seq p1) (.seq e1) (.seq p2) (.seq e2) i = .ok x ∧
      x.1 + nthQ p1 i * x.2 = nthQ p1 i / nthQ e1 i ∧
      x.1 + nthQ p2 i * x.2 = nthQ p2 i / nthQ e2 i := by
  have hsub : nthQ p2 i - nthQ p1 i ≠ 0 := sub_ne_zero.mpr (Ne.symm hp)
  refine ⟨(nthQ p1 i / nthQ e1 i -
      (nthQ p2 i / nthQ e2 i - nthQ p1 i / nthQ e1 i) /
        (nthQ p2 i - nthQ p1 i) * nthQ p1 i,
      (nthQ p2 i / nthQ e2 i - nthQ p1 i / nthQ e1 i) /
        (nthQ p2 i - nthQ p1 i)), ?_, by ring, ?_⟩
  · simp only [alphaStep, pyValIdx_seq_lt p1 i h1, pyValIdx_seq_lt p2 i h2,
      pyValIdx_seq_lt e1 i h3, pyValIdx_seq_lt e2 i h4]
    rw [if_neg he1, if_neg he2]
    unfold solve2x2
    rw [if_neg hsub]
  · field_simp
    ring

theorem alphaLoop_ok (p1 e1 p2 e2 : List ℚ) (L : ℕ)
    (hl1 : p1.length = L) (hl2 : e1.length = L)
    (hl3 : p2.length = L) (hl4 : e2.length = L)
    (hnd : ∀ i < L, nthQ e1 i ≠ 0 ∧ nthQ e2 i ≠ 0 ∧
      nthQ p1 i ≠ nthQ p2 i) :
    ∀ n, n ≤ L → ∃ a0 a1 : List ℚ,
      alphaLoop (.seq p1) (.seq e1) (.seq p2) (.seq e2) n = .ok (a0, a1) ∧
      a0.length = n ∧ a1.length = n ∧
      ∀ i < n,
        nthQ a0 i + nthQ p1 i * nthQ a1 i = nthQ p1 i / nthQ e1 i ∧
        nthQ a0 i + nthQ p2 i * nthQ a1 i = nthQ p2 i / nthQ e2 i := by
  intro n
  induction n with
  | zero =>
      intro _
      exact ⟨[], [], rfl, rfl, rfl, by intro i hi; exact absurd hi (by omega)⟩
  | succ n ih =>
      intro hn
      obtain ⟨a0, a1, hloop, hlen0, hlen1, hprop⟩ := ih (by omega)
      obtain ⟨hc1, hc2, hc3⟩ := hnd n (by omega)
      obtain ⟨x, hx, hx1, hx2⟩ := alphaStep_ok p1 e1 p2 e2 n
        (by omega) (by omega) (by omega) (by omega) hc1 hc2 hc3
      refine ⟨a0 ++ [x.1], a1 ++ [x.2], ?_, ?_, ?_, ?_⟩
      · unfold alphaLoop
        rw [hloop, hx]
      · simp [hlen0]
      · simp [hlen1]
      · intro i hi
        by_cases hi2 : i < n
        · rw [nthQ_append_lt _ _ _ (by omega), nthQ_append_lt _ _ _ (by omega)]
          exact hprop i hi2
        · have hieq : i = n := by omega
          subst hieq
          have e0 : nthQ (a0 ++ [x.1]) i = x.1 := by
            rw [show i = a0.length by omega, nthQ_concat_self]
          have e1x : nthQ (a1 ++ [x.2]) i = x.2 := by
            rw [show i = a1.length by omega, nthQ_concat_self]
          rw [e0, e1x]
          exact ⟨hx1, hx2⟩

/-- C6 (amended): when the four alpha inputs are sequences of the same
positive length whose efficiencies are nonzero and whose operating
points differ per step, `_calculate_alphas` succeeds and for each step
the coefficients solve `[[1, P_min], [1, P_max]] x = [P_min / Eta_min,
P_max / Eta_max]`; when the four are sequences of inconsistent lengths
it raises the dimension `ValueError`.  (Scalar inputs are not
broadcast: see the counterexample theorem.) -/
theorem c6_alpha_calculation (p1 e1 p2 e2 : List ℚ) :
    ((e1.length = p1.length) → (p2.length = p1.length) →
      (e2.length = p1.length) → 0 < p1.length →
      (∀ i < p1.length, nthQ e1 i ≠ 0 ∧ nthQ e2 i ≠ 0 ∧
        nthQ p1 i ≠ nthQ p2 i) →
      ∃ a0 a1 : List ℚ,
        calculateAlphas (.seq p1) (.seq e1) (.seq p2) (.seq e2)
            = .ok (a0, a1) ∧
        a0.length = p1.length ∧ a1.length = p1.length ∧
        ∀ i < p1.length,
          nthQ a0 i + nthQ p1 i * nthQ a1 i = nthQ p1 i / nthQ e1 i ∧
          nthQ a0 i + nthQ p2 i * nthQ a1 i = nthQ p2 i / nthQ e2 i) ∧
    (¬ (p1.length = e1.length ∧ e1.length = p2.length ∧
        p2.length = e2.length) →
      calculateAlphas (.seq p1) (.seq e1) (.seq p2) (.seq e2)
          = .error .valueErrorDim) := by
  constructor
  · intro he1l hp2l he2l h0 hnd
    have hm : pyMax (nonScalarLengths
        [.seq p1, .seq e1, .seq p2, .seq e2]) = .ok p1.length := by
      show pyMax [p1.length, e1.length, p2.length, e2.length] = .ok p1.length
      unfold pyMax
      rw [he1l, hp2l, he2l]
      simp
    simp only [calculateAlphas, hm,
      allLenEq_four_true p1 e1 p2 e2 p1.length rfl he1l hp2l he2l]
    rw [if_neg (by omega : ¬ p1.length = 0)]
    exact alphaLoop_ok p1 e1 p2 e2 p1.length rfl he1l hp2l he2l hnd
      p1.length le_rfl
  · intro hne
    have hm : pyMax (nonScalarLengths
        [.seq p1, .seq e1, .seq p2, .seq e2])
        = .ok ([e1.length, p2.length, e2.length].foldl max p1.length) := by
      rfl
    have hfalse : allLenEq [.seq p1, .seq e1, .seq p2, .seq e2]
        ([e1.length, p2.length, e2.length].foldl max p1.length)
        = .ok false := by
      apply allLenEq_four_false
      rintro ⟨a, b, c, d⟩
      exact hne ⟨a.trans b.symm, b.trans c.symm, c.trans d.symm⟩
    simp only [calculateAlphas, hm, hfalse]

/-- Witness for `c6_alpha_calculation`: the success half at the
length-1 inputs `P_min = [1]`, `Eta_min = [1]`, `P_max = [2]`,
`Eta_max = [1]`, and the error half at `P_min = [1, 1]` against
length-1 remaining inputs. -/
theorem c6_alpha_calculation_witness :
    (∃ a0 a1 : List ℚ,
      calculateAlphas (.seq [(1 : ℚ)]) (.seq [(1 : ℚ)]) (.seq [(2 : ℚ)])
          (.seq [(1 : ℚ)]) = .ok (a0, a1) ∧
      a0.length = [(1 : ℚ)].length ∧ a1.length = [(1 : ℚ)].length ∧
      ∀ i < [(1 : ℚ)].length,
        nthQ a0 i + nthQ [(1 : ℚ)] i * nthQ a1 i
            = nthQ [(1 : ℚ)] i / nthQ [(1 : ℚ)] i ∧
        nthQ a0 i + nthQ [(2 : ℚ)] i * nthQ a1 i
            = nthQ [(2 : ℚ)] i / nthQ [(1 : ℚ)] i) ∧
    calculateAlphas (.seq [(1 : ℚ), (1 : ℚ)]) (.seq [(1 : ℚ)])
        (.seq [(2 : ℚ)]) (.seq [(1 : ℚ)]) = .error .valueErrorDim :=
  ⟨(c6_alpha_calculation [(1 : ℚ)] [(1 : ℚ)] [(2 : ℚ)] [(1 : ℚ)]).1
      rfl rfl rfl (by decide) (by decide),
    (c6_alpha_calculation [(1 : ℚ), (1 : ℚ)] [(1 : ℚ)] [(2 : ℚ)]
      [(1 : ℚ)]).2 (by decide)⟩

/-- C6 counterexample: scalar inputs are not broadcast.  With
`P_min_woDH` a scalar and the three other inputs length-1 lists (equal
effective lengths under broadcasting), `_calculate_alphas` raises
`TypeError` from `len()` of the scalar instead of succeeding; with all
four inputs scalars it raises `ValueError` from `max()` of an empty
list. -/
theorem c6_scalar_counterexample :
    calculateAlphas (.scalar 1) (.seq [(1 : ℚ)]) (.seq [(2 : ℚ)])
        (.seq [(1 : ℚ)]) = .error .typeError ∧
    calculateAlphas (.scalar 1) (.scalar 1) (.scalar 2) (.scalar 1)
        = .error .valueErrorMax := by
  constructor <;> rfl

/- ------------------------------------------------------------------ -/
/- Embedding of `ExtractionTurbineCHPBlock._create`                    -/
/- (components.py lines 897-966).                                      -/
/- ------------------------------------------------------------------ -/

/-- An `ExtractionTurbineCHP` as seen by
`ExtractionTurbineCHPBlock._create` (components.py lines 916-936):
node id, the single inflow bus (`list(n.inputs)[0]`), the main output
bus (the key of `conversion_factor_full_condensation`), the tapped
output bus (the other output), and the per-timestep conversion
factors. -/
structure EtChp where
  id : ℕ
  inflowBus : ℕ
  mainOut : ℕ
  tappedOut : ℕ
  cfMain : ℕ → ℚ
  cfTapped : ℕ → ℚ
  fullCond : ℕ → ℚ

/-- `n.main_flow_loss_index[t]` as computed in the attribute loop
(components.py lines 932-936). -/
def mainFlowLossIndex (n : EtChp) (t : ℕ) : ℚ :=
  (n.fullCond t - n.cfMain t) / n.cfTapped t

/-- One `add` call on the `input_output_relation` constraint
(components.py line 950): the index the constraint is stored under and
the data of the stored equality
`flow[lhsEdge, t] == (flow[mainEdge, t] + flow[tappedEdge, t] * lossIdx)
/ condFactor` at the timestep `t = index.2`. -/
structure EtAdd where
  index : ℕ × ℕ
  lhsEdge : ℕ × ℕ
  mainEdge : ℕ × ℕ
  tappedEdge : ℕ × ℕ
  lossIdx : ℚ
  condFactor : ℚ
  deriving DecidableEq

/-- `_input_output_relation_rule` (components.py lines 938-953): for
every timestep `t` and every group member `g` it builds the equality
from `g`'s flows and derived indices, but stores it with
`block.input_output_relation.add((n, t), ...)` where `n` is the
leftover loop variable of the preceding `for n in group` attribute loop
(lines 916-936), i.e. the LAST member of the group; with an empty group
the rule adds nothing. -/
def inputOutputRelationAdds (group : List EtChp) (timesteps : List ℕ) :
    List EtAdd :=
  match group.getLast? with
  | none => []
  | some nLast =>
      timesteps.flatMap (fun t => group.map (fun g =>
        { index := (nLast.id, t)
          lhsEdge := (g.inflowBus, g.id)
          mainEdge := (g.id, g.mainOut)
          tappedEdge := (g.id, g.tappedOut)
          lossIdx := mainFlowLossIndex g t
          condFactor := g.fullCond t }))

/-- A concrete two-turbine group member: ids and buses distinct, unit
conversion factors. -/
def etExample1 : EtChp :=
  { id := 1, inflowBus := 10, mainOut := 11, tappedOut := 12,
    cfMain := fun _ => 1, cfTapped := fun _ => 1, fullCond := fun _ => 1 }

/-- The second member of the concrete two-turbine group. -/
def etExample2 : EtChp :=
  { id := 2, inflowBus := 20, mainOut := 21, tappedOut := 22,
    cfMain := fun _ => 1, cfTapped := fun _ => 1, fullCond := fun _ => 1 }

/- ------------------------------------------------------------------ -/
/- Embedding of the storage branch of `OperationalModel.results`       -/
/- (plumbing.py lines 301-329).                                        -/
/- ------------------------------------------------------------------ -/

/-- Modelled from the spec: the storage constraint blocks referenced by
`OperationalModel.results` live in the repo module `blocks`, which is
not under `src/`.  Per spec section 4.2 (and the identical pattern of
the blocks in components.py), each block creates its `capacity`
variable only when its group is present (`_create` returns immediately
on an absent group) and indexes it by its own group members and the
timesteps.  The record holds the model's storage nodes, the two
optional block groups, the two capacity valuations, and the
timesteps. -/
structure StorageResultsModel where
  storageNodes : List ℕ
  plainGroup : Option (List ℕ)
  investGroup : Option (List ℕ)
  plainCapacity : ℕ → ℕ → ℚ
  investCapacity : ℕ → ℕ → ℚ
  timesteps : List ℕ

/-- `hasattr(self.Storage, 'capacity')` (plumbing.py line 317): true
exactly when the plain block's group was present, so that its `_create`
declared the `capacity` variable. -/
def storageHasCapacity (m : StorageResultsModel) : Bool :=
  m.plainGroup.isSome

/-- Reading `self.Storage.capacity[node, t].value` (plumbing.py lines
318-320): a `KeyError` (modelled `none`) unless `node` belongs to the
plain block's group. -/
def plainCapacityLookup (m : StorageResultsModel) (node t : ℕ) : Option ℚ :=
  match m.plainGroup with
  | some g => if node ∈ g then some (m.plainCapacity node t) else none
  | none => none

/-- Reading `self.InvestmentStorage.capacity[node, t].value`
(plumbing.py lines 322-324): a `KeyError` (`none`) unless `node`
belongs to the investment block's group. -/
def investCapacityLookup (m : StorageResultsModel) (node t : ℕ) : Option ℚ :=
  match m.investGroup with
  | some g => if node ∈ g then some (m.investCapacity node t) else none
  | none => none

/-- The storage branch of `OperationalModel.results` (plumbing.py lines
315-325) for one storage node: if the plain `Storage` block has a
`capacity` attribute the whole per-timestep series is read from it,
otherwise it is read from the `InvestmentStorage` block; a failing
lookup aborts `results()` with the `KeyError` (`none`). -/
def resultsStorageSeries (m : StorageResultsModel) (node : ℕ) :
    Option (List ℚ) :=
  if node ∈ m.storageNodes then
    if storageHasCapacity m then
      m.timesteps.mapM (fun t => plainCapacityLookup m node t)
    else
      m.timesteps.mapM (fun t => investCapacityLookup m node t)
  else none

/-- A model holding one plain storage (node 1, level constantly 5) and
one investment storage (node 2, level constantly 7) over two
timesteps. -/
def mixedStorageModel : StorageResultsModel :=
  { storageNodes := [1, 2], plainGroup := some [1], investGroup := some [2],
    plainCapacity := fun _ _ => 5, investCapacity := fun _ _ => 7,
    timesteps := [0, 1] }

/-- The same investment storage (node 2) in a model with no plain
storage. -/
def investOnlyStorageModel : StorageResultsModel :=
  { storageNodes := [2], plainGroup := none, investGroup := some [2],
    plainCapacity := fun _ _ => 5, investCapacity := fun _ _ => 7,
    timesteps := [0, 1] }

/- ------------------------------------------------------------------ -/
/- Theorems for C2 and C3.                                             -/
/- ------------------------------------------------------------------ -/

/-- C2: in a group of two `ExtractionTurbineCHP` instances (ids 1 and
2), every `input_output_relation` constraint is stored under the index
of the last instance: the stored `(index, lhs edge)` pairs are
`((2, t), (10, 1))` and `((2, t), (20, 2))`, and no constraint is
indexed by `(1, t)` at all — contradicting the claim (and the block's
own docstring) that instance `n`'s equality is indexed by `(n, t)`.
With a singleton group the index does match the instance. -/
theorem c2_input_output_relation_index :
    ((inputOutputRelationAdds [etExample1, etExample2] [0]).map
        (fun a => (a.index, a.lhsEdge)))
      = [((2, 0), (10, 1)), ((2, 0), (20, 2))] ∧
    (¬ ∃ a ∈ inputOutputRelationAdds [etExample1, etExample2] [0],
        a.index = (1, 0)) ∧
    ((inputOutputRelationAdds [etExample1] [0]).map
        (fun a => (a.index, a.lhsEdge))) = [((1, 0), (10, 1))] := by
  refine ⟨by rfl, by decide, by rfl⟩

/-- C3: in a model containing both a plain and an investment storage,
`results()` reads every storage's level series from the plain `Storage`
block (because that block has a `capacity` attribute), so the
investment storage's lookup fails with a `KeyError` instead of
producing its series; the plain storage in the same model, and the same
investment storage in a model without plain storages, do get their
series. -/
theorem c3_results_mixed_storage :
    resultsStorageSeries mixedStorageModel 2 = none ∧
    resultsStorageSeries mixedStorageModel 1 = some [5, 5] ∧
    resultsStorageSeries investOnlyStorageModel 2 = some [7, 7] := by
  refine ⟨by rfl, by rfl, by rfl⟩

/- ------------------------------------------------------------------ -/
/- Embedding of the storage balance rules with their error path        -/
/- (components.py lines 240-254 and 386-399; plumbing.py line 135).    -/
/- ------------------------------------------------------------------ -/

/-- `OperationalModel.timeincrement = self.timeindex.freq.nanos / 3.6e12`
(plumbing.py line 135): a single scalar number of hours per step, not a
per-step sequence. -/
def operationalTimeincrement (freqNanos : ℚ) : ℚ :=
  freqNanos / 3600000000000

/-- The read `m.timeincrement[t]` performed by the balance rules
(components.py lines 249, 251, 394, 396): the model's `timeincrement`
attribute is the scalar of plumbing.py line 135, so the subscription is
`pyValIdx` applied to a scalar value and raises `TypeError`. -/
def timeincrementSubscript (timeincrement : ℚ) (t : ℕ) :
    Except AlphaError ℚ :=
  pyValIdx (.scalar timeincrement) t

/-- The left-hand side accumulated by
`GenericStorageBlock._create._storage_balance_rule` (components.py
lines 240-252), built by the same four `expr +=` steps with the error
path kept: the third and fourth steps each read `m.timeincrement[t]`,
and only if both reads returned values would the rule build the
arithmetic expression.  `flow` is the model's flow variable valuation
indexed by edge `(source, target)` and timestep, `prev` the model's
`previous_timesteps` map, `timeincrement` the model's scalar
`timeincrement` attribute, and `cap` the block's `capacity` variable
valuation for storage `n` with first input bus `src` and first output
bus `dst`. -/
def storageBalanceRuleExpr (flow : ℕ × ℕ → ℕ → ℚ) (prev : ℕ → ℕ)
    (timeincrement : ℚ) (cap : ℕ → ℚ) (n : SolphStorage) (src dst : ℕ)
    (t : ℕ) : Except AlphaError ℚ :=
  match timeincrementSubscript timeincrement t with
  | .error e => .error e
  | .ok tau1 =>
      match timeincrementSubscript timeincrement t with
      | .error e => .error e
      | .ok tau2 =>
          .ok (0
            + cap t
            + (- cap (prev t) * (1 - n.capacityLoss t))
            + (- flow (src, n.id) t * n.inflowConversionFactor t) * tau1
            + (flow (n.id, dst) t / n.outflowConversionFactor t) * tau2)

/-- The left-hand side accumulated by
`GenericInvestmentStorageBlock._create._storage_balance_rule`
(components.py lines 386-397); the rule body is textually identical to
the plain block's, including the two `m.timeincrement[t]` reads. -/
def investStorageBalanceRuleExpr (flow : ℕ × ℕ → ℕ → ℚ) (prev : ℕ → ℕ)
    (timeincrement : ℚ) (cap : ℕ → ℚ) (n : SolphStorage) (src dst : ℕ)
    (t : ℕ) : Except AlphaError ℚ :=
  match timeincrementSubscript timeincrement t with
  | .error e => .error e
  | .ok tau1 =>
      match timeincrementSubscript timeincrement t with
      | .error e => .error e
      | .ok tau2 =>
          .ok (0
            + cap t
            + (- cap (prev t) * (1 - n.capacityLoss t))
            + (- flow (src, n.id) t * n.inflowConversionFactor t) * tau1
            + (flow (n.id, dst) t / n.outflowConversionFactor t) * tau2)

/-- The storage of the `GenericStorage` docstring example
(components.py lines 81-92): capacity loss 0.01, inflow conversion
factor 0.9, outflow conversion factor 0.93, one input bus (7) and one
output bus (8). -/
def exampleStorage : SolphStorage :=
  { id := 1, inputs := [7], outputs := [8],
    capacityLoss := fun _ => 1 / 100,
    inflowConversionFactor := fun _ => 9 / 10,
    outflowConversionFactor := fun _ => 93 / 100 }

/-- C1 (code bug): both storage balance rules multiply by
`m.timeincrement[t]` (components.py lines 249, 251, 394, 396), but
`OperationalModel.timeincrement` is the scalar float of plumbing.py
line 135, so the subscription raises `TypeError` for every storage,
timestep and valuation and the claimed balance equality is never
assembled.  Evaluated concretely on the docstring storage with an
hourly time index (`freq.nanos = 3.6e12`, so timeincrement 1.0) at
timestep 0, and in general. -/
theorem c1_storage_balance_type_error :
    (storageBalanceRuleExpr (fun _ _ => 0) (fun _ => 2)
        (operationalTimeincrement 3600000000000) (fun _ => 0)
        exampleStorage 7 8 0 = .error .typeError ∧
      investStorageBalanceRuleExpr (fun _ _ => 0) (fun _ => 2)
        (operationalTimeincrement 3600000000000) (fun _ => 0)
        exampleStorage 7 8 0 = .error .typeError) ∧
    ∀ (flow : ℕ × ℕ → ℕ → ℚ) (prev : ℕ → ℕ) (timeincrement : ℚ)
      (cap : ℕ → ℚ) (n : SolphStorage) (src dst t : ℕ),
      storageBalanceRuleExpr flow prev timeincrement cap n src dst t
          = .error .typeError ∧
      investStorageBalanceRuleExpr flow prev timeincrement cap n src dst t
          = .error .typeError :=
  ⟨⟨rfl, rfl⟩, fun _ _ _ _ _ _ _ _ => ⟨rfl, rfl⟩⟩
